import Mathlib

/-!
Shallow embedding of the risk-management layer of the Pouseidon trading bot
(`src/lib/risk/*.js` and the unnamed modules containing `CircuitBreaker`,
`BalanceReconciler`, `WalletBalanceMonitor`), together with proofs checking
the natural-language specification against the code.

Conventions of the embedding:
* JS `BigInt` values are modelled as `Int`; JS `BigInt` division truncates
  toward zero, modelled as `Int.div` (written `jsDivTrunc`).
* `Date.now()` is passed in explicitly as a `now : Int` argument.
* Thrown exceptions become `Except`/`Option` error values; a returned value
  is `Except.ok`.
* JS object maps keyed by asset name become association lists
  `List (String × Int)` with first-match lookup and default `0n`.
-/

namespace Pouseidon

/-- JS `BigInt` division: truncation toward zero (`Int.tdiv`). -/
def jsDivTrunc (a b : Int) : Int := Int.tdiv a b

/-- `clampInt` from `src/lib/utils.js`: `Math.max(min, Math.min(max, Math.trunc(n)))`
(arguments already integral in our model, so `Math.trunc` is the identity). -/
def clampInt (n lo hi : Int) : Int := max lo (min hi n)

/-! ## CircuitBreaker (src/unnamed/part_002) -/

/-- Configuration fields of `CircuitBreaker` fixed at construction. -/
structure CBConfig where
  maxConsecutiveFailures : Int := 3
  coolOffMs : Int := 5 * 60 * 1000
  deriving Repr, DecidableEq

/-- The mutable `this.state` of `CircuitBreaker`.  `trippedAt` is `none` for
JS `null`; `data` is modelled as an opaque `String` payload. -/
structure CBState where
  halted : Bool
  trippedAt : Option Int
  reason : Option String
  data : Option String
  consecutiveFailures : Nat
  deriving Repr, DecidableEq

/-- The state installed by the constructor and by `reset()`. -/
def CBState.initial : CBState :=
  { halted := false, trippedAt := none, reason := none, data := none,
    consecutiveFailures := 0 }

/-- JS truthiness of `this.state.trippedAt` (`null` and `0` are falsy). -/
def jsTruthyTime : Option Int → Bool
  | none => false
  | some t => t ≠ 0

/-- `reset({auto})`: replaces the state with a fresh healthy state. -/
def CBState.reset (_s : CBState) : CBState := CBState.initial

/-- `trip(reason, data)`: Healthy→Halted, recording `Date.now()`, reason and
data; a trip while already halted only logs and changes nothing. -/
def CBState.trip (s : CBState) (now : Int) (reason : String) (data : String) : CBState :=
  if s.halted then s
  else { s with halted := true, trippedAt := some now,
                reason := some reason, data := some data }

/-- `isHalted()`: false when not halted; when halted with `coolOffMs > 0` and a
truthy `trippedAt`, auto-resets and returns false once
`Date.now() - trippedAt >= coolOffMs`; otherwise stays halted.  Returns the
boolean result together with the (possibly auto-reset) state. -/
def CBState.isHalted (cfg : CBConfig) (now : Int) (s : CBState) : Bool × CBState :=
  if !s.halted then (false, s)
  else if cfg.coolOffMs > 0 ∧ jsTruthyTime s.trippedAt then
    let t := s.trippedAt.getD 0
    if now - t ≥ cfg.coolOffMs then (false, s.reset)
    else (true, s)
  else (true, s)

/-- The payload of a thrown `CircuitBreakerTrippedError`. -/
structure CBError where
  reason : Option String
  data : Option String
  deriving Repr, DecidableEq

/-- `ensureHealthy()`: returns normally (with the possibly auto-reset state)
when `isHalted()` is false, otherwise throws `CircuitBreakerTrippedError`
carrying the stored reason and data, leaving the state unchanged. -/
def CBState.ensureHealthy (cfg : CBConfig) (now : Int) (s : CBState) :
    CBState × Option CBError :=
  let (h, s') := s.isHalted cfg now
  if h then (s, some ⟨s.reason, s.data⟩) else (s', none)

/-- `recordSuccess({scope})`: resets the consecutive-failure counter. -/
def CBState.recordSuccess (s : CBState) : CBState :=
  { s with consecutiveFailures := 0 }

/-- `recordFailure({scope, error})`: increments `consecutiveFailures`; when
`maxConsecutiveFailures > 0` and the counter has reached it, trips with reason
`too_many_consecutive_failures`. -/
def CBState.recordFailure (cfg : CBConfig) (now : Int) (scope : String)
    (s : CBState) : CBState :=
  if cfg.maxConsecutiveFailures > 0 ∧
      ((s.consecutiveFailures + 1 : Nat) : Int) ≥ cfg.maxConsecutiveFailures then
    ({ s with consecutiveFailures := s.consecutiveFailures + 1 } : CBState).trip
      now "too_many_consecutive_failures" scope
  else { s with consecutiveFailures := s.consecutiveFailures + 1 }

/-- `n` successive `recordFailure` calls (call `i` happening at time
`times i`), with no intervening `recordSuccess`. -/
def CBState.iterFailures (cfg : CBConfig) (times : Nat → Int) (scope : String) :
    Nat → CBState → CBState
  | 0, s => s
  | n + 1, s =>
      (CBState.iterFailures cfg times scope n s).recordFailure cfg (times n) scope

/-! Basic facts about `trip`, `recordFailure` and the failure-counting loop. -/

theorem trip_consec (s : CBState) (now : Int) (r d : String) :
    (s.trip now r d).consecutiveFailures = s.consecutiveFailures := by
  unfold CBState.trip; split <;> rfl

theorem trip_halted (s : CBState) (now : Int) (r d : String) :
    (s.trip now r d).halted = true := by
  unfold CBState.trip
  split
  · next h => exact h
  · rfl

theorem trip_reason_of_healthy (s : CBState) (now : Int) (r d : String)
    (h : s.halted = false) : (s.trip now r d).reason = some r := by
  unfold CBState.trip
  rw [h]
  rfl

theorem trip_reason_of_halted (s : CBState) (now : Int) (r d : String)
    (h : s.halted = true) : (s.trip now r d).reason = s.reason := by
  unfold CBState.trip
  rw [h]
  rfl

theorem recordFailure_consec (cfg : CBConfig) (now : Int) (scope : String)
    (s : CBState) :
    (s.recordFailure cfg now scope).consecutiveFailures = s.consecutiveFailures + 1 := by
  unfold CBState.recordFailure
  split
  · rw [trip_consec]
  · rfl

theorem iterFailures_count (cfg : CBConfig) (times : Nat → Int) (scope : String)
    (n : Nat) (s : CBState) :
    (CBState.iterFailures cfg times scope n s).consecutiveFailures =
      s.consecutiveFailures + n := by
  induction n with
  | zero => rfl
  | succ k ih =>
      rw [CBState.iterFailures, recordFailure_consec, ih]
      omega

theorem recordFailure_eq_pos (cfg : CBConfig) (now : Int) (scope : String)
    (s : CBState)
    (h : cfg.maxConsecutiveFailures > 0 ∧
      ((s.consecutiveFailures + 1 : Nat) : Int) ≥ cfg.maxConsecutiveFailures) :
    s.recordFailure cfg now scope =
      ({ s with consecutiveFailures := s.consecutiveFailures + 1 } : CBState).trip
        now "too_many_consecutive_failures" scope := by
  unfold CBState.recordFailure
  rw [if_pos h]

theorem recordFailure_eq_neg (cfg : CBConfig) (now : Int) (scope : String)
    (s : CBState)
    (h : ¬(cfg.maxConsecutiveFailures > 0 ∧
      ((s.consecutiveFailures + 1 : Nat) : Int) ≥ cfg.maxConsecutiveFailures)) :
    s.recordFailure cfg now scope =
      { s with consecutiveFailures := s.consecutiveFailures + 1 } := by
  unfold CBState.recordFailure
  rw [if_neg h]

theorem iterFailures_halted (cfg : CBConfig) (times : Nat → Int) (scope : String)
    (hmax : 0 < cfg.maxConsecutiveFailures)
    (n : Nat) :
    ((CBState.iterFailures cfg times scope n CBState.initial).halted = true ↔
      cfg.maxConsecutiveFailures ≤ (n : Int)) ∧
    (cfg.maxConsecutiveFailures ≤ (n : Int) →
      (CBState.iterFailures cfg times scope n CBState.initial).reason =
        some "too_many_consecutive_failures") := by
  induction n with
  | zero =>
      refine ⟨?_, ?_⟩
      · simp only [CBState.iterFailures, CBState.initial, Nat.cast_zero]
        constructor
        · intro h; exact absurd h (by decide)
        · intro h; omega
      · intro h; omega
  | succ k ih =>
      have hcount : (CBState.iterFailures cfg times scope k CBState.initial).consecutiveFailures = k := by
        rw [iterFailures_count]
        simp [CBState.initial]
      set sk := CBState.iterFailures cfg times scope k CBState.initial with hsk
      have hstep : CBState.iterFailures cfg times scope (k + 1) CBState.initial =
          sk.recordFailure cfg (times k) scope := rfl
      by_cases hge : cfg.maxConsecutiveFailures ≤ ((k : Int) + 1)
      · have hcond : cfg.maxConsecutiveFailures > 0 ∧
            ((sk.consecutiveFailures + 1 : Nat) : Int) ≥ cfg.maxConsecutiveFailures := by
          refine ⟨hmax, ?_⟩
          rw [hcount]; push_cast; omega
        rw [hstep, recordFailure_eq_pos cfg (times k) scope sk hcond]
        constructor
        · constructor
          · intro _; push_cast; omega
          · intro _; exact trip_halted _ _ _ _
        · intro _
          by_cases hhalt : sk.halted = true
          · have hh : ({ sk with consecutiveFailures := sk.consecutiveFailures + 1 } :
                CBState).halted = true := hhalt
            rw [trip_reason_of_halted _ _ _ _ hh]
            exact ih.2 (ih.1.mp hhalt)
          · have hh : ({ sk with consecutiveFailures := sk.consecutiveFailures + 1 } :
                CBState).halted = false := by simpa using hhalt
            rw [trip_reason_of_healthy _ _ _ _ hh]
      · have hcond : ¬(cfg.maxConsecutiveFailures > 0 ∧
            ((sk.consecutiveFailures + 1 : Nat) : Int) ≥ cfg.maxConsecutiveFailures) := by
          rw [hcount]
          push_neg
          intro _
          push_cast
          omega
        rw [hstep, recordFailure_eq_neg cfg (times k) scope sk hcond]
        constructor
        · constructor
          · intro hh
            have := ih.1.mp hh
            omega
          · intro hh
            push_cast at hh
            omega
        · intro hh
          push_cast at hh
          omega

/-- C3: starting from a fresh breaker, after `n` `recordFailure` calls with no
intervening `recordSuccess` the counter equals `n`; the breaker is halted
exactly when `n` has reached `maxConsecutiveFailures`, with reason
`too_many_consecutive_failures`; and any `recordSuccess` resets the counter
to 0. -/
theorem recordFailure_counts_and_trips (cfg : CBConfig) (times : Nat → Int)
    (scope : String) (n : Nat) (hmax : 0 < cfg.maxConsecutiveFailures) :
    (CBState.iterFailures cfg times scope n CBState.initial).consecutiveFailures = n ∧
    ((CBState.iterFailures cfg times scope n CBState.initial).halted = true ↔
      cfg.maxConsecutiveFailures ≤ (n : Int)) ∧
    (cfg.maxConsecutiveFailures ≤ (n : Int) →
      (CBState.iterFailures cfg times scope n CBState.initial).reason =
        some "too_many_consecutive_failures") ∧
    (∀ s : CBState, s.recordSuccess.consecutiveFailures = 0) := by
  refine ⟨?_, (iterFailures_halted cfg times scope hmax n).1,
    (iterFailures_halted cfg times scope hmax n).2, fun s => rfl⟩
  have := iterFailures_count cfg times scope n CBState.initial
  simpa [CBState.initial] using this

/-- Witness for C3 at the default configuration, `n = 3` failures. -/
theorem recordFailure_counts_and_trips_witness :
    (0 : Int) < (CBConfig.mk 3 300000).maxConsecutiveFailures ∧
    ((CBState.iterFailures (CBConfig.mk 3 300000) (fun i => (i : Int)) "s" 3
        CBState.initial).consecutiveFailures = 3 ∧
      ((CBState.iterFailures (CBConfig.mk 3 300000) (fun i => (i : Int)) "s" 3
          CBState.initial).halted = true ↔
        (CBConfig.mk 3 300000).maxConsecutiveFailures ≤ (3 : Int)) ∧
      ((CBConfig.mk 3 300000).maxConsecutiveFailures ≤ (3 : Int) →
        (CBState.iterFailures (CBConfig.mk 3 300000) (fun i => (i : Int)) "s" 3
            CBState.initial).reason = some "too_many_consecutive_failures") ∧
      (∀ s : CBState, s.recordSuccess.consecutiveFailures = 0)) :=
  ⟨by decide,
    recordFailure_counts_and_trips (CBConfig.mk 3 300000) (fun i => (i : Int)) "s" 3
      (by decide)⟩

theorem trip_of_healthy (s : CBState) (now : Int) (r d : String)
    (h : s.halted = false) :
    s.trip now r d =
      { s with halted := true, trippedAt := some now,
               reason := some r, data := some d } := by
  unfold CBState.trip
  rw [h]
  simp

/-- C6: first failure wins.  `trip` while Healthy records reason, data and
the timestamp; a second `trip` while still Halted changes no state. -/
theorem trip_idempotent_first_wins (t1 t2 : Int) (r1 r2 d1 d2 : String)
    (s : CBState) (h : s.halted = false) :
    (s.trip t1 r1 d1).trip t2 r2 d2 = s.trip t1 r1 d1 ∧
    (s.trip t1 r1 d1).reason = some r1 ∧
    (s.trip t1 r1 d1).data = some d1 ∧
    (s.trip t1 r1 d1).trippedAt = some t1 := by
  rw [trip_of_healthy s t1 r1 d1 h]
  refine ⟨?_, rfl, rfl, rfl⟩
  unfold CBState.trip
  simp

/-- Witness for C6 at a concrete healthy state and two concrete trips. -/
theorem trip_idempotent_first_wins_witness :
    CBState.initial.halted = false ∧
    ((CBState.initial.trip 7 "r1" "d1").trip 9 "r2" "d2" =
        CBState.initial.trip 7 "r1" "d1" ∧
      (CBState.initial.trip 7 "r1" "d1").reason = some "r1" ∧
      (CBState.initial.trip 7 "r1" "d1").data = some "d1" ∧
      (CBState.initial.trip 7 "r1" "d1").trippedAt = some 7) :=
  ⟨rfl, trip_idempotent_first_wins 7 9 "r1" "r2" "d1" "d2" CBState.initial rfl⟩

/-- C5: after a trip at time `t0` (with positive `coolOffMs`), `ensureHealthy`
throws `CircuitBreakerTrippedError{reason, data}` at every time strictly
before the cool-off elapses, leaving the state untouched; at any time with
`coolOffMs` elapsed it auto-resets to the fresh Healthy state and returns
normally; and from the Healthy state `ensureHealthy` keeps returning normally
at every later time (no re-entry into Halted without a new trip). -/
theorem isHalted_before_cooloff (cfg : CBConfig) (now t0 : Int) (r d : String)
    (hco : 0 < cfg.coolOffMs) (ht0 : t0 ≠ 0) (h1 : now - t0 < cfg.coolOffMs) :
    CBState.isHalted cfg now
      { halted := true, trippedAt := some t0, reason := some r,
        data := some d, consecutiveFailures := 0 } =
      (true, { halted := true, trippedAt := some t0, reason := some r,
               data := some d, consecutiveFailures := 0 }) := by
  unfold CBState.isHalted
  simp only [Bool.not_true, Bool.false_eq_true, if_false]
  rw [if_pos ⟨hco, by simp [jsTruthyTime, ht0]⟩]
  simp only [Option.getD_some]
  rw [if_neg (by omega)]

theorem isHalted_past_cooloff (cfg : CBConfig) (now t0 : Int) (r d : String)
    (hco : 0 < cfg.coolOffMs) (ht0 : t0 ≠ 0) (h2 : cfg.coolOffMs ≤ now - t0) :
    CBState.isHalted cfg now
      { halted := true, trippedAt := some t0, reason := some r,
        data := some d, consecutiveFailures := 0 } =
      (false, CBState.initial) := by
  unfold CBState.isHalted
  simp only [Bool.not_true, Bool.false_eq_true, if_false]
  rw [if_pos ⟨hco, by simp [jsTruthyTime, ht0]⟩]
  simp only [Option.getD_some]
  rw [if_pos (by omega)]
  rfl

theorem ensureHealthy_cooloff (cfg : CBConfig) (t0 now1 now2 now3 : Int)
    (r d : String) (hco : 0 < cfg.coolOffMs) (ht0 : t0 ≠ 0)
    (h1 : now1 - t0 < cfg.coolOffMs) (h2 : cfg.coolOffMs ≤ now2 - t0) :
    CBState.ensureHealthy cfg now1 (CBState.initial.trip t0 r d) =
      (CBState.initial.trip t0 r d, some ⟨some r, some d⟩) ∧
    CBState.ensureHealthy cfg now2 (CBState.initial.trip t0 r d) =
      (CBState.initial, none) ∧
    CBState.ensureHealthy cfg now3 CBState.initial = (CBState.initial, none) := by
  have hs1 : CBState.initial.trip t0 r d =
      { halted := true, trippedAt := some t0, reason := some r, data := some d,
        consecutiveFailures := 0 } := rfl
  refine ⟨?_, ?_, ?_⟩
  · rw [hs1]
    unfold CBState.ensureHealthy
    rw [isHalted_before_cooloff cfg now1 t0 r d hco ht0 h1]
    rfl
  · rw [hs1]
    unfold CBState.ensureHealthy
    rw [isHalted_past_cooloff cfg now2 t0 r d hco ht0 h2]
    rfl
  · unfold CBState.ensureHealthy CBState.isHalted
    simp [CBState.initial]

/-- Witness for C5: default cool-off 300000 ms, trip at t=1000, probes at
t=1500 (still halted), t=301000 (auto-reset), t=400000 (stays healthy). -/
theorem ensureHealthy_cooloff_witness :
    (0 : Int) < ({} : CBConfig).coolOffMs ∧ (1000 : Int) ≠ 0 ∧
    (1500 : Int) - 1000 < ({} : CBConfig).coolOffMs ∧
    ({} : CBConfig).coolOffMs ≤ (301000 : Int) - 1000 ∧
    (CBState.ensureHealthy {} 1500 (CBState.initial.trip 1000 "r" "d") =
        (CBState.initial.trip 1000 "r" "d", some ⟨some "r", some "d"⟩) ∧
      CBState.ensureHealthy {} 301000 (CBState.initial.trip 1000 "r" "d") =
        (CBState.initial, none) ∧
      CBState.ensureHealthy {} 400000 CBState.initial = (CBState.initial, none)) :=
  ⟨by decide, by decide, by decide, by decide,
    ensureHealthy_cooloff {} 1000 1500 301000 400000 "r" "d"
      (by decide) (by decide) (by decide) (by decide)⟩

/-- C10: with `coolOffMs ≤ 0` the auto-reset branch of `isHalted` is disabled:
any halted state stays halted at every time (`isHalted` returns `true` and
leaves the state unchanged, so this persists across any number of calls),
every `ensureHealthy` throws `CircuitBreakerTrippedError` with the stored
reason and data, and only an explicit `reset()` restores the Healthy state. -/
theorem coolOff_nonpos_halts_forever (cfg : CBConfig) (hco : cfg.coolOffMs ≤ 0)
    (s : CBState) (hs : s.halted = true) (now : Int) :
    s.isHalted cfg now = (true, s) ∧
    CBState.ensureHealthy cfg now s = (s, some ⟨s.reason, s.data⟩) ∧
    s.reset = CBState.initial := by
  have hih : s.isHalted cfg now = (true, s) := by
    unfold CBState.isHalted
    rw [hs]
    simp only [Bool.not_true, Bool.false_eq_true, if_false]
    rw [if_neg (by rintro ⟨hpos, -⟩; omega)]
  refine ⟨hih, ?_, rfl⟩
  unfold CBState.ensureHealthy
  rw [hih]
  simp

/-- Witness for C10: `coolOffMs = 0`, a tripped state, probed far in the
future — still halted, `ensureHealthy` still throws. -/
theorem coolOff_nonpos_halts_forever_witness :
    (CBConfig.mk 3 0).coolOffMs ≤ 0 ∧
    (CBState.initial.trip 5 "r" "d").halted = true ∧
    ((CBState.initial.trip 5 "r" "d").isHalted (CBConfig.mk 3 0) 1000000000 =
        (true, CBState.initial.trip 5 "r" "d") ∧
      CBState.ensureHealthy (CBConfig.mk 3 0) 1000000000
          (CBState.initial.trip 5 "r" "d") =
        (CBState.initial.trip 5 "r" "d",
          some ⟨(CBState.initial.trip 5 "r" "d").reason,
                (CBState.initial.trip 5 "r" "d").data⟩) ∧
      (CBState.initial.trip 5 "r" "d").reset = CBState.initial) :=
  ⟨by decide, by decide,
    coolOff_nonpos_halts_forever (CBConfig.mk 3 0) (by decide)
      (CBState.initial.trip 5 "r" "d") (by decide) 1000000000⟩

/-! ## AtomicExecutor (src/lib/risk/atomicExecutor.js)

`executeSequence({tradeId, steps, recovery})` first calls
`circuitBreaker.ensureHealthy()` (which throws when the breaker is halted),
then throws `SafetyCheckError{code: MISSING_STEPS}` when `steps` is not a
non-empty array, and only then enters the per-step loop, whose entire body is
wrapped in `try/catch`, so no step failure escapes: the catch block returns
`{ok:false, tradeId, failedScope, error, completed}`.  The provider behaviour
for each step (`sendTransaction` / `waitForReceipt`) is part of the `Step`
input of the embedding.  `runSteps` also returns the number of steps for
which `txProvider.sendTransaction` was invoked (every processed step invokes
it exactly once, whether or not the step fails). -/

structure Receipt where
  status : String
  deriving Repr, DecidableEq

/-- What `txProvider.sendTransaction` does for a given step. -/
inductive SendOutcome
  | hash (txHash : String)
  | thrown (msg : String)
  deriving Repr, DecidableEq

/-- What `txProvider.waitForReceipt` does for a given step. -/
inductive ReceiptOutcome
  | receipt (r : Receipt)
  | thrown (msg : String)
  deriving Repr, DecidableEq

structure Step where
  scope : String            -- `""` models a falsy `step.scope`
  retryable : Bool
  sendOutcome : SendOutcome
  receiptOutcome : ReceiptOutcome
  deriving Repr, DecidableEq

/-- `step.scope || 'unknown_step'`. -/
def effScope (scope : String) : String :=
  if scope = "" then "unknown_step" else scope

structure Completed where
  scope : String
  txHash : String
  receipt : Receipt
  deriving Repr, DecidableEq

structure SequenceResult where
  ok : Bool
  failedScope : Option String
  completed : List Completed
  deriving Repr, DecidableEq

/-- Outcome of one loop iteration's `try` body: `some (txHash, receipt)` when
the step completes (receipt status `"success"`), `none` when anything in the
body throws (send throws, waitForReceipt throws, or a non-success receipt
raises `RetryableTransactionError`). -/
def stepResult (st : Step) : Option (String × Receipt) :=
  match st.sendOutcome with
  | .thrown _ => none
  | .hash h =>
    match st.receiptOutcome with
    | .thrown _ => none
    | .receipt r => if r.status = "success" then some (h, r) else none

/-- The `{scope, txHash, receipt}` record pushed onto `completed` for a
successful step. -/
def completedOf (st : Step) : Option Completed :=
  (stepResult st).map fun p => ⟨effScope st.scope, p.1, p.2⟩

/-- The `for (const step of steps)` loop of `executeSequence`, carrying the
`completed` accumulator; second component counts `sendTransaction`
invocations. -/
def runSteps : List Step → List Completed → SequenceResult × Nat
  | [], acc => ({ ok := true, failedScope := none, completed := acc }, 0)
  | st :: rest, acc =>
    match stepResult st with
    | some p =>
      let out := runSteps rest (acc ++ [⟨effScope st.scope, p.1, p.2⟩])
      (out.1, out.2 + 1)
    | none =>
      ({ ok := false, failedScope := some (effScope st.scope), completed := acc }, 1)

/-- Exceptions that escape `executeSequence` to its caller. -/
inductive ExecThrow
  | circuitBreakerTripped
  | safetyCheck (code : String)
  deriving Repr, DecidableEq

/-- `executeSequence`: the entry guards, then the loop.
`breakerHaltedAtEntry` is the value of `circuitBreaker.isHalted()` at the
entry `ensureHealthy()` call; `steps = none` models a missing / non-array
`steps` argument. -/
def executeSequence (breakerHaltedAtEntry : Bool) (steps : Option (List Step)) :
    Except ExecThrow (SequenceResult × Nat) :=
  if breakerHaltedAtEntry then .error .circuitBreakerTripped
  else
    match steps with
    | none => .error (.safetyCheck "MISSING_STEPS")
    | some l =>
      if l.isEmpty then .error (.safetyCheck "MISSING_STEPS")
      else .ok (runSteps l [])

/-- C1 counterexample: `executeSequence` does throw on two failure paths the
claim says are returned as `{ok:false}` — a halted breaker at entry and an
empty steps array. -/
theorem executeSequence_throws_at_entry_guards :
    executeSequence true
        (some [⟨"step1", false, .hash "0xabc", .receipt ⟨"success"⟩⟩]) =
      Except.error ExecThrow.circuitBreakerTripped ∧
    executeSequence false (some []) =
      Except.error (ExecThrow.safetyCheck "MISSING_STEPS") :=
  ⟨rfl, rfl⟩

/-- C1 (amended): `executeSequence` throws exactly on the entry guards — a
halted circuit breaker at entry, or a missing / empty steps array; for any
non-empty steps list with a healthy breaker it returns (never throws), every
step-level failure being surfaced inside the returned `SequenceResult`. -/
theorem executeSequence_throws_only_entry_guards :
    (∀ (halted : Bool) (steps : Option (List Step)),
      (∃ e, executeSequence halted steps = Except.error e) ↔
        (halted = true ∨ steps = none ∨ steps = some [])) ∧
    (∀ (st : Step) (rest : List Step),
      executeSequence false (some (st :: rest)) =
        Except.ok (runSteps (st :: rest) [])) := by
  constructor
  · intro halted steps
    cases halted
    · cases steps with
      | none => simp [executeSequence]
      | some l =>
        cases l with
        | nil => simp [executeSequence]
        | cons st rest => simp [executeSequence]
    · simp [executeSequence]
  · intro st rest
    rfl

/-- The loop stops at the first failing step: with `pre` all succeeding and
`failStep` failing, it returns `ok := false`, `failedScope` from the failing
step, `completed` holding exactly the records of `pre` in order, and the
provider invoked only for `pre` and the failing step. -/
theorem runSteps_first_fail (pre post : List Step) (failStep : Step)
    (acc : List Completed)
    (hpre : ∀ st ∈ pre, stepResult st ≠ none)
    (hfail : stepResult failStep = none) :
    runSteps (pre ++ failStep :: post) acc =
      ({ ok := false, failedScope := some (effScope failStep.scope),
         completed := acc ++ pre.filterMap completedOf }, pre.length + 1) := by
  induction pre generalizing acc with
  | nil =>
      simp only [List.nil_append, List.filterMap_nil, List.append_nil,
        List.length_nil]
      unfold runSteps
      rw [hfail]
  | cons st rest ih =>
      have h0 : stepResult st ≠ none := hpre st (by simp)
      obtain ⟨p, hp⟩ : ∃ p, stepResult st = some p := by
        cases hres : stepResult st
        · exact absurd hres h0
        · exact ⟨_, rfl⟩
      have hco : completedOf st = some ⟨effScope st.scope, p.1, p.2⟩ := by
        unfold completedOf
        rw [hp]
        rfl
      have hpre2 : ∀ s ∈ rest, stepResult s ≠ none :=
        fun s hs => hpre s (by simp [hs])
      show runSteps (st :: (rest ++ failStep :: post)) acc = _
      unfold runSteps
      rw [hp]
      dsimp only
      rw [ih _ hpre2]
      simp [hco]

theorem filterMap_completedOf_length (pre : List Step)
    (hpre : ∀ st ∈ pre, stepResult st ≠ none) :
    (pre.filterMap completedOf).length = pre.length := by
  induction pre with
  | nil => rfl
  | cons st rest ih =>
      have h0 : stepResult st ≠ none := hpre st (by simp)
      obtain ⟨p, hp⟩ : ∃ p, stepResult st = some p := by
        cases hres : stepResult st
        · exact absurd hres h0
        · exact ⟨_, rfl⟩
      have hco : completedOf st = some ⟨effScope st.scope, p.1, p.2⟩ := by
        unfold completedOf
        rw [hp]
        rfl
      simp [hco, ih (fun s hs => hpre s (by simp [hs]))]

/-- C2: for `executeSequence` on `pre ++ failStep :: post` (so the failing
step is step `k = pre.length + 1` in 1-based numbering, the first to fail),
the call returns a `SequenceResult` with `ok := false`, `completed` holding
exactly the `k-1` earlier steps' `{scope, txHash, receipt}` records in
execution order (`completed.length = k-1`), `failedScope = failStep.scope`,
and the transaction provider invoked for exactly the first `k` steps — never
for any step after the failing one. -/
theorem executeSequence_first_failure (pre post : List Step) (failStep : Step)
    (hpre : ∀ st ∈ pre, stepResult st ≠ none)
    (hfail : stepResult failStep = none)
    (hscope : failStep.scope ≠ "") :
    executeSequence false (some (pre ++ failStep :: post)) =
      Except.ok
        ({ ok := false, failedScope := some failStep.scope,
           completed := pre.filterMap completedOf }, pre.length + 1) ∧
    (pre.filterMap completedOf).length = pre.length := by
  refine ⟨?_, filterMap_completedOf_length pre hpre⟩
  have hrun := runSteps_first_fail pre post failStep [] hpre hfail
  have hne : (pre ++ failStep :: post).isEmpty = false := by
    cases pre <;> rfl
  have happ : executeSequence false (some (pre ++ failStep :: post)) =
      Except.ok (runSteps (pre ++ failStep :: post) []) := by
    unfold executeSequence
    simp [hne]
  rw [happ, hrun]
  unfold effScope
  rw [if_neg hscope]
  simp

/-- Witness for C2: two succeeding steps, a failing third step (reverted
receipt), one never-reached step. -/
theorem executeSequence_first_failure_witness :
    (∀ st ∈ [(⟨"s1", false, .hash "0x1", .receipt ⟨"success"⟩⟩ : Step),
             ⟨"s2", false, .hash "0x2", .receipt ⟨"success"⟩⟩],
        stepResult st ≠ none) ∧
    stepResult ⟨"s3", false, .hash "0x3", .receipt ⟨"reverted"⟩⟩ = none ∧
    (⟨"s3", false, .hash "0x3", .receipt ⟨"reverted"⟩⟩ : Step).scope ≠ "" ∧
    (executeSequence false
        (some ([⟨"s1", false, .hash "0x1", .receipt ⟨"success"⟩⟩,
                ⟨"s2", false, .hash "0x2", .receipt ⟨"success"⟩⟩] ++
          (⟨"s3", false, .hash "0x3", .receipt ⟨"reverted"⟩⟩ : Step) ::
            [⟨"s4", false, .hash "0x4", .receipt ⟨"success"⟩⟩])) =
      Except.ok
        ({ ok := false, failedScope := some "s3",
           completed :=
            [(⟨"s1", false, .hash "0x1", .receipt ⟨"success"⟩⟩ : Step),
             ⟨"s2", false, .hash "0x2", .receipt ⟨"success"⟩⟩].filterMap
              completedOf }, 3) ∧
      ([(⟨"s1", false, .hash "0x1", .receipt ⟨"success"⟩⟩ : Step),
        ⟨"s2", false, .hash "0x2", .receipt ⟨"success"⟩⟩].filterMap
          completedOf).length = 2) :=
  ⟨by decide, by decide, by decide,
    executeSequence_first_failure
      [⟨"s1", false, .hash "0x1", .receipt ⟨"success"⟩⟩,
       ⟨"s2", false, .hash "0x2", .receipt ⟨"success"⟩⟩]
      [⟨"s4", false, .hash "0x4", .receipt ⟨"success"⟩⟩]
      ⟨"s3", false, .hash "0x3", .receipt ⟨"reverted"⟩⟩
      (by decide) (by decide) (by decide)⟩

/-! ## SlippageEnforcer (src/lib/risk/slippage.js)

Amounts are JS `BigInt`s (`Int` here); `maxSlippageBps` is a JS number,
already integral in our model, so `Math.trunc` is the identity and
`Math.max(0, …)` is `max 0 …`. -/

/-- `minOutFromExpected(expectedOut, maxSlippageBps)`. -/
def minOutFromExpected (expectedOut : Int) (maxSlippageBps : Int) : Int :=
  let bps := max 0 maxSlippageBps
  jsDivTrunc (expectedOut * (10000 - bps)) 10000

/-- `slippageBps(expectedOut, actualOut)`. -/
def slippageBps (expectedOut actualOut : Int) : Int :=
  if expectedOut ≤ 0 then 0
  else if actualOut ≥ expectedOut then 0
  else jsDivTrunc ((expectedOut - actualOut) * 10000) expectedOut

structure SlipError where
  code : String
  deriving Repr, DecidableEq

/-- `SlippageEnforcer.assertExecutionWithinLimits` with the slippage cap
already resolved (`maxSlippageBps ?? defaultMaxSlippageBps`): throws
`SafetyCheckError{code: SLIPPAGE_EXCEEDED}` iff `actual < minOut`. -/
def assertExecutionWithinLimits
    (expectedAmountOut actualAmountOut maxSlippageBps : Int) :
    Except SlipError Unit :=
  let minOut := minOutFromExpected expectedAmountOut maxSlippageBps
  if actualAmountOut < minOut then Except.error ⟨"SLIPPAGE_EXCEEDED"⟩
  else Except.ok ()

/-- C7: `computeMinOut` returns
`floor(expectedAmountOut * (10000 - maxSlippageBps) / 10000)` (on the
meaningful domain: non-negative amount, bps between 0 and 10000, where JS
BigInt truncation agrees with floor), and the round-trip holds:
`assertExecutionWithinLimits` passes at `actual = minOut` and throws
`SLIPPAGE_EXCEEDED` at `actual = minOut - 1`. -/
theorem computeMinOut_floor_roundtrip (expectedOut bps : Int)
    (hexp : 0 ≤ expectedOut) (hb0 : 0 ≤ bps) (hb1 : bps ≤ 10000) :
    minOutFromExpected expectedOut bps =
      Int.fdiv (expectedOut * (10000 - bps)) 10000 ∧
    assertExecutionWithinLimits expectedOut
      (minOutFromExpected expectedOut bps) bps = Except.ok () ∧
    assertExecutionWithinLimits expectedOut
      (minOutFromExpected expectedOut bps - 1) bps =
      Except.error ⟨"SLIPPAGE_EXCEEDED"⟩ := by
  refine ⟨?_, ?_, ?_⟩
  · unfold minOutFromExpected jsDivTrunc
    rw [max_eq_right hb0]
    rw [Int.tdiv_eq_ediv (mul_nonneg hexp (by omega)) (by omega),
      Int.fdiv_eq_ediv _ (by omega)]
  · unfold assertExecutionWithinLimits
    rw [if_neg (by omega)]
  · unfold assertExecutionWithinLimits
    rw [if_pos (by omega)]

/-- Witness for C7 at `expectedAmountOut = 1000`, `maxSlippageBps = 50`
(`minOut = 995`). -/
theorem computeMinOut_floor_roundtrip_witness :
    (0 : Int) ≤ 1000 ∧ (0 : Int) ≤ 50 ∧ (50 : Int) ≤ 10000 ∧
    (minOutFromExpected 1000 50 = Int.fdiv (1000 * (10000 - 50)) 10000 ∧
      assertExecutionWithinLimits 1000 (minOutFromExpected 1000 50) 50 =
        Except.ok () ∧
      assertExecutionWithinLimits 1000 (minOutFromExpected 1000 50 - 1) 50 =
        Except.error ⟨"SLIPPAGE_EXCEEDED"⟩) :=
  ⟨by decide, by decide, by decide,
    computeMinOut_floor_roundtrip 1000 50 (by decide) (by decide) (by decide)⟩

/-! ## CapitalSafetyValidator (src/lib/risk/capitalSafety.js)

Balance / reserve / cap maps become association lists with first-match
lookup; `balances[asset] ?? 0n` is `lookup0`, while
`maxTradeAmountByAsset[assetIn] !== undefined` is `lookupOpt`.
A falsy `trade.assetIn` is `none`. -/

/-- Object lookup with default `0n`. -/
def lookup0 (l : List (String × Int)) (k : String) : Int :=
  match l.find? (fun p => p.1 = k) with
  | some p => p.2
  | none => 0

/-- Object lookup distinguishing absence (`undefined`). -/
def lookupOpt (l : List (String × Int)) (k : String) : Option Int :=
  (l.find? (fun p => p.1 = k)).map (fun p => p.2)

structure CSConfig where
  minReserveByAsset : List (String × Int) := []
  maxTradeFractionBps : Int := 5000
  maxTradeAmountByAsset : List (String × Int) := []
  feeAsset : Option String := none
  feeBuffer : Int := 0
  deriving Repr, DecidableEq

structure Trade where
  assetIn : Option String
  amountIn : Int
  tradeFeeAsset : Option String := none
  deriving Repr, DecidableEq

structure CSError where
  code : String
  deriving Repr, DecidableEq

/-- Fields of the record `validate` returns on success (the ones the claims
mention). -/
structure CSOk where
  assetIn : String
  amountIn : Int
  balanceIn : Int
  reserveIn : Int
  freeIn : Int
  maxAllowedIn : Int
  deriving Repr, DecidableEq

/-- `freeIn = balIn > reserveIn ? balIn - reserveIn : 0n`. -/
def freeOf (bal reserve : Int) : Int :=
  if bal > reserve then bal - reserve else 0

/-- `maxAllowedIn = min(capByFraction, capByAbsolute)` with
`capByFraction = maxTradeFractionBps > 0 ? freeIn*bps/10000n : freeIn` and
`capByAbsolute = maxTradeAmountByAsset[assetIn] ?? freeIn` (absent key only). -/
def capOf (cfg : CSConfig) (freeIn : Int) (assetIn : String) : Int :=
  let capByFraction :=
    if cfg.maxTradeFractionBps > 0 then
      jsDivTrunc (freeIn * cfg.maxTradeFractionBps) 10000
    else freeIn
  let capByAbsolute := (lookupOpt cfg.maxTradeAmountByAsset assetIn).getD freeIn
  if capByFraction < capByAbsolute then capByFraction else capByAbsolute

/-- `CapitalSafetyValidator.validate({balances, trade, estimatedFee})`. -/
def validate (cfg : CSConfig) (balances : List (String × Int))
    (tradeOpt : Option Trade) (estimatedFee : Int) : Except CSError CSOk :=
  match tradeOpt with
  | none => Except.error ⟨"MISSING_TRADE"⟩
  | some trade =>
    if trade.amountIn ≤ 0 then Except.error ⟨"INVALID_TRADE_AMOUNT"⟩
    else
      match trade.assetIn with
      | none => Except.error ⟨"MISSING_ASSET_IN"⟩
      | some assetIn =>
        let balIn := lookup0 balances assetIn
        let reserveIn := lookup0 cfg.minReserveByAsset assetIn
        let freeIn := freeOf balIn reserveIn
        let maxAllowedIn := capOf cfg freeIn assetIn
        let feeAsset := match trade.tradeFeeAsset with
          | some a => some a
          | none => cfg.feeAsset
        let feeTotal := estimatedFee + cfg.feeBuffer
        if trade.amountIn > maxAllowedIn then
          Except.error ⟨"TRADE_AMOUNT_EXCEEDS_LIMITS"⟩
        else if trade.amountIn > freeIn then
          Except.error ⟨"INSUFFICIENT_FREE_BALANCE"⟩
        else
          match feeAsset with
          | some fa =>
            let freeFee := freeOf (lookup0 balances fa) (lookup0 cfg.minReserveByAsset fa)
            if feeTotal > freeFee then Except.error ⟨"INSUFFICIENT_FEE_BALANCE"⟩
            else Except.ok ⟨assetIn, trade.amountIn, balIn, reserveIn, freeIn, maxAllowedIn⟩
          | none => Except.ok ⟨assetIn, trade.amountIn, balIn, reserveIn, freeIn, maxAllowedIn⟩

/-- C8: `validate` computes `freeBalance = max(0, balance - minReserve)` and
the cap `min(freeBalance*maxTradeFractionBps/10000, maxTradeAmount ?? freeBalance)`,
failing with `TRADE_AMOUNT_EXCEEDS_LIMITS` when `amountIn` exceeds the cap;
and in the concrete scenario (balances `{USDT:1000}`, no reserve, no absolute
cap, `maxTradeFractionBps = 5000`, `amountIn = 600`) the cap is 500 and
validation fails with that code. -/
theorem validate_cap_exceeded (cfg : CSConfig) (balances : List (String × Int))
    (assetIn : String) (amountIn fee : Int)
    (hamt : 0 < amountIn) (hfrac : 0 < cfg.maxTradeFractionBps)
    (hover : capOf cfg
        (freeOf (lookup0 balances assetIn) (lookup0 cfg.minReserveByAsset assetIn))
        assetIn < amountIn) :
    freeOf (lookup0 balances assetIn) (lookup0 cfg.minReserveByAsset assetIn) =
      max 0 (lookup0 balances assetIn - lookup0 cfg.minReserveByAsset assetIn) ∧
    capOf cfg
        (freeOf (lookup0 balances assetIn) (lookup0 cfg.minReserveByAsset assetIn))
        assetIn =
      min (jsDivTrunc
            (freeOf (lookup0 balances assetIn) (lookup0 cfg.minReserveByAsset assetIn) *
              cfg.maxTradeFractionBps) 10000)
          ((lookupOpt cfg.maxTradeAmountByAsset assetIn).getD
            (freeOf (lookup0 balances assetIn) (lookup0 cfg.minReserveByAsset assetIn))) ∧
    validate cfg balances (some ⟨some assetIn, amountIn, none⟩) fee =
      Except.error ⟨"TRADE_AMOUNT_EXCEEDS_LIMITS"⟩ ∧
    capOf { maxTradeFractionBps := 5000 }
        (freeOf (lookup0 [("USDT", 1000)] "USDT")
          (lookup0 ({ maxTradeFractionBps := 5000 } : CSConfig).minReserveByAsset "USDT"))
        "USDT" = 500 ∧
    validate { maxTradeFractionBps := 5000 } [("USDT", 1000)]
        (some ⟨some "USDT", 600, none⟩) 0 =
      Except.error ⟨"TRADE_AMOUNT_EXCEEDS_LIMITS"⟩ := by
  refine ⟨?_, ?_, ?_, by rfl, by rfl⟩
  · unfold freeOf
    split <;> omega
  · unfold capOf
    rw [if_pos hfrac]
    dsimp only
    rcases le_or_lt
        (jsDivTrunc
          (freeOf (lookup0 balances assetIn) (lookup0 cfg.minReserveByAsset assetIn) *
            cfg.maxTradeFractionBps) 10000)
        ((lookupOpt cfg.maxTradeAmountByAsset assetIn).getD
          (freeOf (lookup0 balances assetIn) (lookup0 cfg.minReserveByAsset assetIn)))
      with hle | hgt
    · rw [min_eq_left hle]
      split <;> omega
    · rw [min_eq_right (le_of_lt hgt)]
      rw [if_neg (by omega)]
  · show (if amountIn ≤ 0 then (Except.error ⟨"INVALID_TRADE_AMOUNT"⟩ : Except CSError CSOk)
      else
        let balIn := lookup0 balances assetIn
        let reserveIn := lookup0 cfg.minReserveByAsset assetIn
        let freeIn := freeOf balIn reserveIn
        let maxAllowedIn := capOf cfg freeIn assetIn
        let feeAsset := cfg.feeAsset
        let feeTotal := fee + cfg.feeBuffer
        if amountIn > maxAllowedIn then Except.error ⟨"TRADE_AMOUNT_EXCEEDS_LIMITS"⟩
        else if amountIn > freeIn then Except.error ⟨"INSUFFICIENT_FREE_BALANCE"⟩
        else
          match feeAsset with
          | some fa =>
            let freeFee := freeOf (lookup0 balances fa) (lookup0 cfg.minReserveByAsset fa)
            if feeTotal > freeFee then Except.error ⟨"INSUFFICIENT_FEE_BALANCE"⟩
            else Except.ok ⟨assetIn, amountIn, balIn, reserveIn, freeIn, maxAllowedIn⟩
          | none => Except.ok ⟨assetIn, amountIn, balIn, reserveIn, freeIn, maxAllowedIn⟩) = _
    rw [if_neg (by omega)]
    dsimp only
    rw [if_pos (by omega)]

/-- Witness for C8 at the concrete scenario of the claim. -/
theorem validate_cap_exceeded_witness :
    (0 : Int) < 600 ∧
    (0 : Int) < ({ maxTradeFractionBps := 5000 } : CSConfig).maxTradeFractionBps ∧
    capOf { maxTradeFractionBps := 5000 }
        (freeOf (lookup0 [("USDT", 1000)] "USDT")
          (lookup0 ({ maxTradeFractionBps := 5000 } : CSConfig).minReserveByAsset "USDT"))
        "USDT" < 600 ∧
    validate { maxTradeFractionBps := 5000 } [("USDT", 1000)]
        (some ⟨some "USDT", 600, none⟩) 0 =
      Except.error ⟨"TRADE_AMOUNT_EXCEEDS_LIMITS"⟩ :=
  ⟨by decide, by decide, by decide,
    (validate_cap_exceeded { maxTradeFractionBps := 5000 } [("USDT", 1000)]
      "USDT" 600 0 (by decide) (by decide) (by decide)).2.2.1⟩

/-! ## BalanceReconciler (src/unnamed/part_001)

`reconcile({expectedBalances})` walks the union of the asset keys of the
expected and actual maps, flags `|expected - actual| > tolerance (default 0)`
as a mismatch, and on any mismatch trips the breaker and throws
`SafetyCheckError{code: BALANCE_RECONCILIATION_MISMATCH}` carrying all
mismatches.  The `walletProvider.getBalances()` result is passed in as
`actual`. -/

/-- `absDiff` from the source. -/
def absDiff (a b : Int) : Int := if a ≥ b then a - b else b - a

structure Mismatch where
  asset : String
  expected : Int
  actual : Int
  diff : Int
  tolerance : Int
  deriving Repr, DecidableEq

/-- `new Set([...Object.keys(expected), ...Object.keys(actual)])`:
deduplicated keys in first-occurrence order. -/
def unionKeys (a b : List String) : List String :=
  (a ++ b).foldl (fun acc k => if k ∈ acc then acc else acc ++ [k]) []

def keysOf (l : List (String × Int)) : List String := l.map (fun p => p.1)

/-- The body of `reconcile`'s per-asset loop: `some` mismatch iff
`diff > tol`. -/
def mismatchAt (tol expected actual : List (String × Int)) (asset : String) :
    Option Mismatch :=
  if absDiff (lookup0 expected asset) (lookup0 actual asset) >
      lookup0 tol asset then
    some ⟨asset, lookup0 expected asset, lookup0 actual asset,
          absDiff (lookup0 expected asset) (lookup0 actual asset),
          lookup0 tol asset⟩
  else none

/-- The `mismatches` array accumulated by `reconcile`. -/
def computeMismatches (tol expected actual : List (String × Int)) :
    List Mismatch :=
  (unionKeys (keysOf expected) (keysOf actual)).filterMap
    (mismatchAt tol expected actual)

structure RecError where
  code : String
  mismatches : List Mismatch
  deriving Repr, DecidableEq

/-- `BalanceReconciler.reconcile`, threading the circuit-breaker state: any
mismatch ⇒ trip (reason `balance_reconciliation_mismatch`) and throw with all
mismatches attached; otherwise pass, breaker untouched. -/
def reconcile (tol expected actual : List (String × Int)) (cb : CBState)
    (now : Int) : Except RecError Unit × CBState :=
  let ms := computeMismatches tol expected actual
  if ms.isEmpty then (Except.ok (), cb)
  else (Except.error ⟨"BALANCE_RECONCILIATION_MISMATCH", ms⟩,
        cb.trip now "balance_reconciliation_mismatch" "mismatches")

/-- C9: an asset of the key union is flagged iff `|expected - actual|`
strictly exceeds its tolerance (default 0); any mismatch makes `reconcile`
throw `BALANCE_RECONCILIATION_MISMATCH` carrying all mismatches and trip the
breaker, otherwise it passes; and in the concrete scenario USDT 100 vs 97
passes with tolerance 5 but fails with tolerance 2, reporting diff 3. -/
theorem reconcile_mismatch_characterisation
    (tol expected actual : List (String × Int)) (cb : CBState) (now : Int) :
    (∀ asset ∈ unionKeys (keysOf expected) (keysOf actual),
      ((∃ m ∈ computeMismatches tol expected actual, m.asset = asset) ↔
        absDiff (lookup0 expected asset) (lookup0 actual asset) >
          lookup0 tol asset)) ∧
    (computeMismatches tol expected actual ≠ [] →
      reconcile tol expected actual cb now =
        (Except.error ⟨"BALANCE_RECONCILIATION_MISMATCH",
            computeMismatches tol expected actual⟩,
          cb.trip now "balance_reconciliation_mismatch" "mismatches")) ∧
    (computeMismatches tol expected actual = [] →
      reconcile tol expected actual cb now = (Except.ok (), cb)) ∧
    (reconcile [("USDT", 5)] [("USDT", 100)] [("USDT", 97)] cb now =
      (Except.ok (), cb)) ∧
    (computeMismatches [("USDT", 2)] [("USDT", 100)] [("USDT", 97)] =
      [⟨"USDT", 100, 97, 3, 2⟩]) := by
  refine ⟨?_, ?_, ?_, by rfl, by rfl⟩
  · intro asset ha
    constructor
    · rintro ⟨m, hm, hasset⟩
      rw [computeMismatches, List.mem_filterMap] at hm
      obtain ⟨a2, _, hfa⟩ := hm
      unfold mismatchAt at hfa
      by_cases hc : absDiff (lookup0 expected a2) (lookup0 actual a2) >
          lookup0 tol a2
      · rw [if_pos hc] at hfa
        have hma : m.asset = a2 := by
          cases hfa
          rfl
        rw [hma] at hasset
        rw [hasset] at hc
        exact hc
      · rw [if_neg hc] at hfa
        cases hfa
    · intro hc
      refine ⟨⟨asset, lookup0 expected asset, lookup0 actual asset,
          absDiff (lookup0 expected asset) (lookup0 actual asset),
          lookup0 tol asset⟩, ?_, rfl⟩
      rw [computeMismatches, List.mem_filterMap]
      exact ⟨asset, ha, by unfold mismatchAt; rw [if_pos hc]⟩
  · intro hne
    unfold reconcile
    rw [if_neg (by simpa [List.isEmpty_iff] using hne)]
  · intro hz
    unfold reconcile
    rw [if_pos (by simpa [List.isEmpty_iff] using hz)]

/-- Witness for C9 at the concrete maps of the claim (the general conjuncts
instantiated at the tolerance-2 scenario). -/
theorem reconcile_mismatch_characterisation_witness :
    ((∀ asset ∈ unionKeys (keysOf [("USDT", 100)]) (keysOf [("USDT", 97)]),
      ((∃ m ∈ computeMismatches [("USDT", 2)] [("USDT", 100)] [("USDT", 97)],
          m.asset = asset) ↔
        absDiff (lookup0 [("USDT", 100)] asset) (lookup0 [("USDT", 97)] asset) >
          lookup0 [("USDT", 2)] asset)) ∧
    (computeMismatches [("USDT", 2)] [("USDT", 100)] [("USDT", 97)] ≠ [] →
      reconcile [("USDT", 2)] [("USDT", 100)] [("USDT", 97)] CBState.initial 42 =
        (Except.error ⟨"BALANCE_RECONCILIATION_MISMATCH",
            computeMismatches [("USDT", 2)] [("USDT", 100)] [("USDT", 97)]⟩,
          CBState.initial.trip 42 "balance_reconciliation_mismatch" "mismatches")) ∧
    (computeMismatches [("USDT", 2)] [("USDT", 100)] [("USDT", 97)] = [] →
      reconcile [("USDT", 2)] [("USDT", 100)] [("USDT", 97)] CBState.initial 42 =
        (Except.ok (), CBState.initial)) ∧
    (reconcile [("USDT", 5)] [("USDT", 100)] [("USDT", 97)] CBState.initial 42 =
      (Except.ok (), CBState.initial)) ∧
    (computeMismatches [("USDT", 2)] [("USDT", 100)] [("USDT", 97)] =
      [⟨"USDT", 100, 97, 3, 2⟩])) :=
  reconcile_mismatch_characterisation [("USDT", 2)] [("USDT", 100)]
    [("USDT", 97)] CBState.initial 42

/-! ## RetryQueue (src/lib/risk/retryQueue.js)

`enqueue` clamps `maxAttempts` to `[1, 50]` and starts tasks at
`attempt = 0`.  `_workerLoop` (with a healthy breaker and this task alone in
the queue): pops the task, increments `attempt`, computes
`computeDelayMs` (sleeping it when `attempt > 1`), invokes
`provider.sendTransaction`; on failure it either trips the breaker with
reason `retry_exhausted` and drops the task (`attempt >= maxAttempts`) or
pushes the task back.  The random jitter draw of each attempt is passed in
explicitly via `jitters`. -/

/-- `computeDelayMs({attempt, baseDelayMs, maxDelayMs, jitterMs})`, with the
jitter draw `Math.floor(Math.random() * jitterMs)` supplied as `jitter`. -/
def computeDelayMs (attempt baseDelayMs maxDelayMs : Int) (jitter : Int) : Int :=
  let a := clampInt attempt 1 1000
  min maxDelayMs (baseDelayMs * 2 ^ (a - 1).toNat) + jitter

structure RQConfig where
  baseDelayMs : Int := 1000
  maxDelayMs : Int := 60000
  jitterMs : Int := 250
  deriving Repr, DecidableEq

/-- Trace of one always-failing task through `_workerLoop`. -/
structure RetryTrace where
  sends : Nat                -- sendTransaction invocations
  delays : List Int          -- computeDelayMs result of each attempt, in order
  tripReason : Option String -- breaker trip at the end, if any
  requeued : Bool            -- whether the task was pushed back at the end
  deriving Repr, DecidableEq

/-- Loop iterations for an always-failing task, starting at `task.attempt =
attempt`, with `remaining` further iterations after the current one before
`attempt >= maxAttempts` holds (so `remaining = maxAttempts - attempt - 1`;
the exhaustion check of the source is folded into this counter so that the
recursion is structural).  Each iteration increments the attempt counter,
computes its delay with jitter `jitters a`, invokes the provider once, and
either recurses (task pushed back) or trips `retry_exhausted` and drops the
task. -/
def workerFailRem (cfg : RQConfig) (jitters : Nat → Int) :
    (attempt : Nat) → (remaining : Nat) → RetryTrace
  | attempt, 0 =>
    { sends := 1,
      delays := [computeDelayMs ((attempt + 1 : Nat) : Int)
        cfg.baseDelayMs cfg.maxDelayMs (jitters (attempt + 1))],
      tripReason := some "retry_exhausted", requeued := false }
  | attempt, r + 1 =>
    let rest := workerFailRem cfg jitters (attempt + 1) r
    { sends := rest.sends + 1,
      delays := computeDelayMs ((attempt + 1 : Nat) : Int)
        cfg.baseDelayMs cfg.maxDelayMs (jitters (attempt + 1)) :: rest.delays,
      tripReason := rest.tripReason, requeued := rest.requeued }

/-- A freshly enqueued always-failing task with the given (already clamped)
`maxAttempts ≥ 1`: `attempt` starts at 0 and the loop runs until
`attempt = maxAttempts`. -/
def workerFail (cfg : RQConfig) (jitters : Nat → Int) (maxAttempts : Nat) :
    RetryTrace :=
  workerFailRem cfg jitters 0 (maxAttempts - 1)

/-- C4: a task enqueued with `maxAttempts = 3` (the clamp leaves 3 unchanged)
whose provider always fails is attempted exactly 3 times under the default
queue configuration; the delays computed for the three attempts are
`min(60000, 1000·2^(a-1)) + jitter_a` and are non-decreasing for every
jitter sequence drawn from `[0, 250)`; after the third failure the breaker
is tripped with reason `retry_exhausted` and the task is dropped, not
re-enqueued. -/
theorem retryQueue_exhausts_three_attempts (jitters : Nat → Int)
    (hj : ∀ a, 0 ≤ jitters a ∧ jitters a < 250) :
    clampInt 3 1 50 = 3 ∧
    (workerFail {} jitters 3).sends = 3 ∧
    (workerFail {} jitters 3).delays =
      [1000 + jitters 1, 2000 + jitters 2, 4000 + jitters 3] ∧
    List.Chain' (· ≤ ·) (workerFail {} jitters 3).delays ∧
    (workerFail {} jitters 3).tripReason = some "retry_exhausted" ∧
    (workerFail {} jitters 3).requeued = false := by
  have hd : ∀ a : Nat, 1 ≤ a → a ≤ 3 →
      computeDelayMs ((a : Nat) : Int) 1000 60000 (jitters a) =
        1000 * 2 ^ (a - 1) + jitters a := by
    intro a h1 h3
    unfold computeDelayMs clampInt
    have hcl : max 1 (min 1000 ((a : Nat) : Int)) = ((a : Nat) : Int) := by
      rw [min_eq_right (by omega), max_eq_right (by omega)]
    rw [hcl]
    dsimp only
    have htn : (((a : Nat) : Int) - 1).toNat = a - 1 := by omega
    rw [htn]
    have hle : (1000 : Int) * 2 ^ (a - 1) ≤ 60000 := by
      interval_cases a <;> norm_num
    rw [min_eq_right hle]
  have htrace : workerFail {} jitters 3 =
      { sends := 3,
        delays := [1000 + jitters 1, 2000 + jitters 2, 4000 + jitters 3],
        tripReason := some "retry_exhausted", requeued := false } := by
    unfold workerFail
    show workerFailRem {} jitters 0 2 = _
    rw [workerFailRem, workerFailRem, workerFailRem]
    rw [hd 1 (by omega) (by omega), hd 2 (by omega) (by omega),
      hd 3 (by omega) (by omega)]
    norm_num
  refine ⟨by decide, by rw [htrace], by rw [htrace], ?_, by rw [htrace],
    by rw [htrace]⟩
  rw [htrace]
  have h1 := hj 1
  have h2 := hj 2
  have h3 := hj 3
  simp only [List.chain'_cons, List.chain'_singleton, and_true]
  omega

/-- Witness for C4 with all jitter draws equal to 100. -/
theorem retryQueue_exhausts_three_attempts_witness :
    (∀ a : Nat, 0 ≤ (fun _ : Nat => (100 : Int)) a ∧
      (fun _ : Nat => (100 : Int)) a < 250) ∧
    (clampInt 3 1 50 = 3 ∧
      (workerFail {} (fun _ => 100) 3).sends = 3 ∧
      (workerFail {} (fun _ => 100) 3).delays =
        [1000 + (100 : Int), 2000 + 100, 4000 + 100] ∧
      List.Chain' (· ≤ ·) (workerFail {} (fun _ => 100) 3).delays ∧
      (workerFail {} (fun _ => 100) 3).tripReason = some "retry_exhausted" ∧
      (workerFail {} (fun _ => 100) 3).requeued = false) :=
  ⟨fun _ => by norm_num,
    retryQueue_exhausts_three_attempts (fun _ => 100) (fun _ => by norm_num)⟩

end Pouseidon
